import Mathlib

/-!
Verification development for the `tw_bitcoin` coin entry
(`src/rust/tw_bitcoin/src/entry.rs`): a shallow embedding of the
`BitcoinEntry` signing pipeline (preimage stage, compile stage,
single-call sign path, the error-taxonomy bridge and the address codec)
together with theorems about it.

The entry module orchestrates several collaborator modules that are not
part of the embedded source (input/output/claim builders, the `tw_utxo`
compiler, the signer, the `bitcoin` crate's address codec).  Following the
specification, which treats these as opaque, synchronous, deterministic
functions, they are modelled as parameters (fields of a `Collab`
structure), so every theorem quantifies over all their possible
behaviours unless a spec-documented property of a collaborator is
explicitly assumed.
-/

deriving instance DecidableEq for Except

namespace TwBitcoin

/-- Byte strings, as lists of naturals (each byte `< 256` where it matters). -/
abbrev Bytes := List Nat

/-- `Utxo.proto` error enumeration, in the enumeration order used by the
source's `handle_utxo_error` match. -/
inductive UtxoError where
  | OK
  | Error_invalid_leaf_hash
  | Error_invalid_sighash_type
  | Error_invalid_lock_time
  | Error_invalid_txid
  | Error_sighash_failed
  | Error_missing_sighash_method
  | Error_failed_encoding
  | Error_insufficient_inputs
  | Error_missing_change_script_pubkey
  | Error_zero_sequence_not_enabled
deriving DecidableEq, Fintype

/-- Index of a `UtxoError` variant in its enumeration order. -/
def UtxoError.idx : UtxoError → Nat
  | .OK => 0
  | .Error_invalid_leaf_hash => 1
  | .Error_invalid_sighash_type => 2
  | .Error_invalid_lock_time => 3
  | .Error_invalid_txid => 4
  | .Error_sighash_failed => 5
  | .Error_missing_sighash_method => 6
  | .Error_failed_encoding => 7
  | .Error_insufficient_inputs => 8
  | .Error_missing_change_script_pubkey => 9
  | .Error_zero_sequence_not_enabled => 10

/-- `BitcoinV2.proto` error enumeration (the variants used by the entry
module; the `Error_utxo_*` block in the order it appears in
`handle_utxo_error`).  `Error_translation` stands for the
translation-failure kinds produced by the input/output/claim builders
(spec section 7: translation errors are a distinct kind, never
`UnmatchedInputSignatureCount`, never a `utxo_*` code). -/
inductive ProtoError where
  | OK
  | Error_invalid_change_output
  | Error_unmatched_input_signature_count
  | Error_translation
  | Error_utxo_invalid_leaf_hash
  | Error_utxo_invalid_sighash_type
  | Error_utxo_invalid_lock_time
  | Error_utxo_invalid_txid
  | Error_utxo_sighash_failed
  | Error_utxo_missing_sighash_method
  | Error_utxo_failed_encoding
  | Error_utxo_insufficient_inputs
  | Error_utxo_missing_change_script_pubkey
  | Error_utxo_zero_sequence_not_enabled
deriving DecidableEq, Fintype

/-- Index of a `ProtoError` variant in its enumeration order. -/
def ProtoError.idx : ProtoError → Nat
  | .OK => 0
  | .Error_invalid_change_output => 1
  | .Error_unmatched_input_signature_count => 2
  | .Error_translation => 3
  | .Error_utxo_invalid_leaf_hash => 4
  | .Error_utxo_invalid_sighash_type => 5
  | .Error_utxo_invalid_lock_time => 6
  | .Error_utxo_invalid_txid => 7
  | .Error_utxo_sighash_failed => 8
  | .Error_utxo_missing_sighash_method => 9
  | .Error_utxo_failed_encoding => 10
  | .Error_utxo_insufficient_inputs => 11
  | .Error_utxo_missing_change_script_pubkey => 12
  | .Error_utxo_zero_sequence_not_enabled => 13

/-- The crate-level error type: a wrapper around the proto error kind
(`pub struct Error(Proto::Error)` with `From`/`Into` conversions). -/
structure Error where
  kind : ProtoError
deriving DecidableEq

/-- `Error::from(Proto::Error)`. -/
def Error.from (e : ProtoError) : Error := ⟨e⟩

/-- `err.into()` back to the proto error kind. -/
def Error.into (e : Error) : ProtoError := e.kind

/-- `handle_utxo_error` (entry.rs lines 341-359): converts the
`Utxo.proto` error type to the `BitcoinV2.proto` error type.  `OK` maps
to success; every other variant maps to the corresponding
`Error_utxo_*` code.  The match is exhaustive: there is no default arm. -/
def handle_utxo_error : UtxoError → Except Error Unit
  | .OK => .ok ()
  | .Error_invalid_leaf_hash => .error (Error.from .Error_utxo_invalid_leaf_hash)
  | .Error_invalid_sighash_type => .error (Error.from .Error_utxo_invalid_sighash_type)
  | .Error_invalid_lock_time => .error (Error.from .Error_utxo_invalid_lock_time)
  | .Error_invalid_txid => .error (Error.from .Error_utxo_invalid_txid)
  | .Error_sighash_failed => .error (Error.from .Error_utxo_sighash_failed)
  | .Error_missing_sighash_method => .error (Error.from .Error_utxo_missing_sighash_method)
  | .Error_failed_encoding => .error (Error.from .Error_utxo_failed_encoding)
  | .Error_insufficient_inputs => .error (Error.from .Error_utxo_insufficient_inputs)
  | .Error_missing_change_script_pubkey => .error (Error.from .Error_utxo_missing_change_script_pubkey)
  | .Error_zero_sequence_not_enabled => .error (Error.from .Error_utxo_zero_sequence_not_enabled)

/-- The error-code component of a bridge result (`none` on success). -/
def errOf (r : Except Error Unit) : Option ProtoError :=
  match r with
  | .ok _ => none
  | .error e => some e.kind

/-- Modelled from the spec: a claiming-script descriptor of an input
(spec section 3, `InputSpec`): polymorphic over plain key-hash,
script-path reveal with a leaf script and control block, and
inscription-carrying script. -/
inductive ClaimDescriptor where
  | keyHash (pubkey : Bytes)
  | scriptPath (leafScript : Bytes) (controlBlock : Bytes)
  | inscription (payload : Bytes)
deriving DecidableEq

/-- Modelled from the spec: a recipient descriptor of an output
(spec section 3, `OutputSpec`). -/
inductive RecipientDescriptor where
  | toAddress (s : String)
  | inscribeCommit (payload : Bytes)
  | taproot (payload : Bytes) (controlBlock : Bytes)
deriving DecidableEq

/-- Modelled from the spec: `Proto::Input` of `BitcoinV2.proto` (spec
section 3, `InputSpec`): previous outpoint, value, sequence, a
claiming-script descriptor (a protobuf oneof, hence possibly unset),
sighash type and an optional per-input private key (empty when absent). -/
structure InputSpec where
  prev_txid : Bytes
  prev_vout : Nat
  value : Nat
  sequence : Nat
  claiming_script : Option ClaimDescriptor
  sighash_type : Nat
  private_key : Bytes
deriving DecidableEq

/-- Modelled from the spec: `Proto::Output` of `BitcoinV2.proto` (spec
section 3, `OutputSpec`): value and a recipient descriptor (a protobuf
oneof, hence possibly unset). -/
structure OutputSpec where
  value : Nat
  to_recipient : Option RecipientDescriptor
deriving DecidableEq

/-- Modelled from the spec: input-selection policy (spec section 3). -/
inductive InputSelector where
  | useAll
  | selectSubset
deriving DecidableEq

/-- Modelled from the spec: `Proto::SigningInput` of `BitcoinV2.proto`
(spec section 3, `SigningRequest`), with exactly the fields the entry
module reads. -/
structure SigningInput where
  version : Nat
  lock_time : Nat
  inputs : List InputSpec
  outputs : List OutputSpec
  change_output : Option OutputSpec
  input_selector : InputSelector
  fee_per_vb : Nat
  private_key : Bytes
  disable_change_output : Bool
  dangerous_use_fixed_schnorr_rng : Bool
deriving DecidableEq

/-- Modelled from the spec: `UtxoProto::TxIn`, the canonical input record
(spec section 3, `CanonicalInput`): previous outpoint, sequence, a
claim-descriptor blob, sighash type and value. -/
structure UtxoTxIn where
  txid : Bytes
  vout : Nat
  value : Nat
  sequence : Nat
  script_data : Bytes
  sighash_type : Nat
deriving DecidableEq

/-- `UtxoProto::TxOut` as built by the entry module: value plus
script_pubkey (entry.rs lines 216-219 and 281-284). -/
structure UtxoTxOut where
  value : Nat
  script_pubkey : Bytes
deriving DecidableEq

/-- Modelled from the spec: the canonical output record produced by the
output builder (spec section 3, `CanonicalOutput`):
`{value, script_pubkey, optional taproot_payload, optional control_block}`
(optional fields empty when absent, matching the proto encoding). -/
structure CanonicalOutput where
  value : Nat
  script_pubkey : Bytes
  taproot_payload : Bytes
  control_block : Bytes
deriving DecidableEq

/-- `UtxoProto::SigningInput`: the request shape the entry module hands
to the utxo compiler for preimage generation (entry.rs lines 210-225). -/
structure UtxoSigningInput where
  version : Nat
  lock_time : Nat
  inputs : List UtxoTxIn
  outputs : List UtxoTxOut
  input_selector : InputSelector
  weight_base : Nat
  change_script_pubkey : Bytes
  disable_change_output : Bool
deriving DecidableEq

/-- Modelled from the spec: `UtxoProto::PreSigningOutput`, what the utxo
compiler returns from preimage generation (spec section 6): error code,
per-input sighashes, the finalized input list, weight and fee estimates. -/
structure UtxoPreSigningOutput where
  error : UtxoError
  sighashes : List Bytes
  inputs : List UtxoTxIn
  weight_estimate : Nat
  fee_estimate : Nat
deriving DecidableEq

/-- Modelled from the spec: `UtxoProto::TxInClaim`, a claim record built
from an input and its signature (spec section 3, `TxInClaim`). -/
structure TxInClaim where
  txid : Bytes
  vout : Nat
  sequence : Nat
  script_sig : Bytes
  witness_items : List Bytes
deriving DecidableEq

/-- `UtxoProto::PreSerialization`: the request shape the entry module
hands to the utxo compiler for final compilation (entry.rs lines
275-287). -/
structure PreSerialization where
  version : Nat
  lock_time : Nat
  inputs : List TxInClaim
  outputs : List UtxoTxOut
  weight_base : Nat
deriving DecidableEq

/-- Modelled from the spec: `UtxoProto::SerializedTransaction`, what the
utxo compiler returns from final compilation (spec section 6): error
code, encoded bytes, txid, weight and fee. -/
structure UtxoSerializedOutput where
  error : UtxoError
  encoded : Bytes
  txid : Bytes
  weight : Nat
  fee : Nat
deriving DecidableEq

/-- `Proto::PreSigningOutput` of `BitcoinV2.proto`, with exactly the
fields the entry module writes (entry.rs lines 231-239): error code,
sighashes, finalized utxo inputs, canonical outputs, weight and fee
estimates.  The source's exhaustive struct literal shows these are all
the fields; in particular there is no error-message field. -/
structure PreSigningOutput where
  error : ProtoError
  sighashes : List Bytes
  utxo_inputs : List UtxoTxIn
  utxo_outputs : List CanonicalOutput
  weight_estimate : Nat
  fee_estimate : Nat
deriving DecidableEq

/-- `Proto::PreSigningOutput::default()`. -/
def PreSigningOutput.default : PreSigningOutput :=
  { error := .OK, sighashes := [], utxo_inputs := [], utxo_outputs := []
    weight_estimate := 0, fee_estimate := 0 }

/-- `Proto::TransactionInput` (entry.rs lines 297-307). -/
structure TransactionInput where
  txid : Bytes
  vout : Nat
  sequence : Nat
  script_sig : Bytes
  witness_items : List Bytes
deriving DecidableEq

/-- `Proto::TransactionOutput` (entry.rs lines 313-318). -/
structure TransactionOutput where
  script_pubkey : Bytes
  value : Nat
  taproot_payload : Bytes
  control_block : Bytes
deriving DecidableEq

/-- `Proto::Transaction` (entry.rs lines 322-327). -/
structure Transaction where
  version : Nat
  lock_time : Nat
  inputs : List TransactionInput
  outputs : List TransactionOutput
deriving DecidableEq

/-- `Proto::SigningOutput` of `BitcoinV2.proto`, with exactly the fields
the entry module writes (entry.rs lines 330-337): error code, optional
transaction view, encoded bytes, txid, weight, fee.  The source's
exhaustive struct literal shows these are all the fields; in particular
there is no error-message field. -/
structure SigningOutput where
  error : ProtoError
  transaction : Option Transaction
  encoded : Bytes
  txid : Bytes
  weight : Nat
  fee : Nat
deriving DecidableEq

/-- `Proto::SigningOutput::default()`. -/
def SigningOutput.default : SigningOutput :=
  { error := .OK, transaction := none, encoded := [], txid := [], weight := 0, fee := 0 }

/-- Modelled from the spec: the translation-failure kind produced by the
input/output/claim builders (spec section 7 lists `TranslationError`,
for a malformed script or claim descriptor, as the builders' error
class, distinct from the change-output, signature-count and `utxo_*`
kinds). -/
inductive TranslationFailure where
  | translation
deriving DecidableEq

/-- The crate error a builder failure converts to through the `?`
operator. -/
def TranslationFailure.toError : TranslationFailure → Error
  | .translation => Error.from .Error_translation

/-- The collaborator modules the entry module calls but whose code lives
outside the embedded source.  Each is a pure function, following spec
section 6 ("opaque, synchronous, deterministic function").  The signer
additionally receives a `Nat` seed standing for the ambient OS
randomness its Schnorr path may consume (spec section 4.4). -/
structure Collab where
  input_from_proto : InputSpec → Except TranslationFailure UtxoTxIn
  output_from_proto : OutputSpec → Except TranslationFailure CanonicalOutput
  claim_from_proto : InputSpec → Bytes → Except TranslationFailure TxInClaim
  utxo_preimage_hashes : UtxoSigningInput → UtxoPreSigningOutput
  utxo_compile : PreSerialization → UtxoSerializedOutput
  signatures_from_proto :
    PreSigningOutput → Bytes → List (Nat × Bytes) → Bool → Nat → Except Error (List Bytes)

/-- Effectful map over a list in the `Except` monad, in order,
short-circuiting at the first failure (the embedding of the source's
`for` loops pushing each converted element). -/
def mapE {ε α β : Type} (f : α → Except ε β) : List α → Except ε (List β)
  | [] => .ok []
  | a :: l =>
    match f a with
    | .error e => .error e
    | .ok b =>
      match mapE f l with
      | .error e => .error e
      | .ok l2 => .ok (b :: l2)

/-- The `?` operator on a builder result: converts the builder's failure
into the crate error. -/
def liftB {α : Type} (r : Except TranslationFailure α) : Except Error α :=
  match r with
  | .ok a => .ok a
  | .error e => .error e.toError

/-- entry.rs lines 182-186: convert input builders into utxo inputs, in
order, short-circuiting on the first failure. -/
def translate_inputs (C : Collab) (inputs : List InputSpec) : Except Error (List UtxoTxIn) :=
  mapE (fun i => liftB (C.input_from_proto i)) inputs

/-- entry.rs lines 189-193 (and 267-272): convert output builders into
utxo outputs, in order, short-circuiting on the first failure. -/
def translate_outputs (C : Collab) (outputs : List OutputSpec) :
    Except Error (List CanonicalOutput) :=
  mapE (fun o => liftB (C.output_from_proto o)) outputs

/-- entry.rs lines 195-207: when automatic change output is enabled a
change spec must be present (else `Error_invalid_change_output`); it is
translated like a normal output and its script_pubkey kept.  When change
is disabled the change script is the default (empty) byte string. -/
def change_script (C : Collab) (proto : SigningInput) : Except Error Bytes :=
  if proto.disable_change_output then .ok []
  else
    match proto.change_output with
    | none => .error (Error.from .Error_invalid_change_output)
    | some spec =>
      match liftB (C.output_from_proto spec) with
      | .error e => .error e
      | .ok output => .ok output.script_pubkey

/-- entry.rs lines 210-225: the `UtxoProto::SigningInput` handed to the
utxo compiler for sighash generation. -/
def mkUtxoSigning (proto : SigningInput) (utxo_inputs : List UtxoTxIn)
    (utxo_outputs : List CanonicalOutput) (change : Bytes) : UtxoSigningInput :=
  { version := proto.version
    lock_time := proto.lock_time
    inputs := utxo_inputs
    outputs := utxo_outputs.map (fun o => { value := o.value, script_pubkey := o.script_pubkey })
    input_selector := proto.input_selector
    weight_base := proto.fee_per_vb
    change_script_pubkey := change
    disable_change_output := proto.disable_change_output }

/-- `BitcoinEntry::preimage_hashes_impl` (entry.rs lines 176-240). -/
def preimage_hashes_impl (C : Collab) (proto : SigningInput) :
    Except Error PreSigningOutput :=
  match translate_inputs C proto.inputs with
  | .error e => .error e
  | .ok utxo_inputs =>
    match translate_outputs C proto.outputs with
    | .error e => .error e
    | .ok utxo_outputs =>
      match change_script C proto with
      | .error e => .error e
      | .ok change_script_pubkey =>
        match handle_utxo_error (C.utxo_preimage_hashes
            (mkUtxoSigning proto utxo_inputs utxo_outputs change_script_pubkey)).error with
        | .error e => .error e
        | .ok _ =>
          .ok { error := .OK
                sighashes := (C.utxo_preimage_hashes
                  (mkUtxoSigning proto utxo_inputs utxo_outputs change_script_pubkey)).sighashes
                utxo_inputs := (C.utxo_preimage_hashes
                  (mkUtxoSigning proto utxo_inputs utxo_outputs change_script_pubkey)).inputs
                utxo_outputs := utxo_outputs
                weight_estimate := (C.utxo_preimage_hashes
                  (mkUtxoSigning proto utxo_inputs utxo_outputs change_script_pubkey)).weight_estimate
                fee_estimate := (C.utxo_preimage_hashes
                  (mkUtxoSigning proto utxo_inputs utxo_outputs change_script_pubkey)).fee_estimate }

/-- entry.rs lines 257-264: claim records, one per request input, built
by zipping the request's input list with the signature list in order. -/
def build_claims (C : Collab) (proto : SigningInput) (signatures : List Bytes) :
    Except Error (List TxInClaim) :=
  mapE (fun p => liftB (C.claim_from_proto p.1 p.2)) (proto.inputs.zip signatures)

/-- entry.rs lines 275-287: the `UtxoProto::PreSerialization` handed to
the utxo compiler for final compilation. -/
def mkPreSerialization (proto : SigningInput) (claims : List TxInClaim)
    (outs : List CanonicalOutput) : PreSerialization :=
  { version := proto.version
    lock_time := proto.lock_time
    inputs := claims
    outputs := outs.map (fun o => { value := o.value, script_pubkey := o.script_pubkey })
    weight_base := proto.fee_per_vb }

/-- entry.rs lines 295-308: the `Proto::TransactionInput` view of a
claim record. -/
def claimToTransactionInput (i : TxInClaim) : TransactionInput :=
  { txid := i.txid, vout := i.vout, sequence := i.sequence
    script_sig := i.script_sig, witness_items := i.witness_items }

/-- entry.rs lines 311-319: the `Proto::TransactionOutput` view of a
canonical output. -/
def outputToTransactionOutput (o : CanonicalOutput) : TransactionOutput :=
  { script_pubkey := o.script_pubkey, value := o.value
    taproot_payload := o.taproot_payload, control_block := o.control_block }

/-- `BitcoinEntry::compile_impl` (entry.rs lines 242-338). -/
def compile_impl (C : Collab) (proto : SigningInput) (signatures : List Bytes) :
    Except Error SigningOutput :=
  if proto.inputs.length ≠ signatures.length then
    .error (Error.from .Error_unmatched_input_signature_count)
  else
    match build_claims C proto signatures with
    | .error e => .error e
    | .ok utxo_input_claims =>
      match translate_outputs C proto.outputs with
      | .error e => .error e
      | .ok utxo_outputs =>
        match handle_utxo_error
            (C.utxo_compile (mkPreSerialization proto utxo_input_claims utxo_outputs)).error with
        | .error e => .error e
        | .ok _ =>
          .ok { error := .OK
                transaction := some
                  { version := proto.version
                    lock_time := proto.lock_time
                    inputs := utxo_input_claims.map claimToTransactionInput
                    outputs := utxo_outputs.map outputToTransactionOutput }
                encoded := (C.utxo_compile
                  (mkPreSerialization proto utxo_input_claims utxo_outputs)).encoded
                txid := (C.utxo_compile
                  (mkPreSerialization proto utxo_input_claims utxo_outputs)).txid
                weight := (C.utxo_compile
                  (mkPreSerialization proto utxo_input_claims utxo_outputs)).weight
                fee := (C.utxo_compile
                  (mkPreSerialization proto utxo_input_claims utxo_outputs)).fee }

/-- entry.rs lines 149-154: collect the per-input private keys, indexed
by input position, keeping only the non-empty ones. -/
def collect_individual_keys (inputs : List InputSpec) : List (Nat × Bytes) :=
  (inputs.enum.filter (fun p => p.2.private_key ≠ [])).map
    (fun p => (p.1, p.2.private_key))

/-- `BitcoinEntry::sign_impl` (entry.rs lines 143-174): preimage, abort
on a reported error, sign the sighashes, compile. -/
def sign_impl (C : Collab) (proto : SigningInput) (rng : Nat) :
    Except Error SigningOutput :=
  let individual_keys := collect_individual_keys proto.inputs
  match preimage_hashes_impl C proto with
  | .error e => .error e
  | .ok pre_signed =>
    if pre_signed.error ≠ .OK then
      .error (Error.from pre_signed.error)
    else
      match C.signatures_from_proto pre_signed proto.private_key individual_keys
          proto.dangerous_use_fixed_schnorr_rng rng with
      | .error e => .error e
      | .ok signatures => compile_impl C proto signatures

/-- `BitcoinEntry::sign` (entry.rs lines 86-95): the top-level entry
point converts an implementation error into a default output whose
error field carries the kind. -/
def sign (C : Collab) (proto : SigningInput) (rng : Nat) : SigningOutput :=
  match sign_impl C proto rng with
  | .ok out => out
  | .error err => { SigningOutput.default with error := err.into }

/-- `BitcoinEntry::preimage_hashes` (entry.rs lines 98-111). -/
def preimage_hashes (C : Collab) (proto : SigningInput) : PreSigningOutput :=
  match preimage_hashes_impl C proto with
  | .ok out => out
  | .error err => { PreSigningOutput.default with error := err.into }

/-- `BitcoinEntry::compile` (entry.rs lines 114-129). -/
def compile (C : Collab) (proto : SigningInput) (signatures : List Bytes) : SigningOutput :=
  match compile_impl C proto signatures with
  | .ok out => out
  | .error err => { SigningOutput.default with error := err.into }

/-- Modelled from the spec: a minimal input builder (spec section 4.2):
dispatches on the claim-descriptor variant; an unset descriptor is a
malformed claim descriptor and fails translation. -/
def modelInputBuilder (i : InputSpec) : Except TranslationFailure UtxoTxIn :=
  match i.claiming_script with
  | none => .error .translation
  | some _ =>
    .ok { txid := i.prev_txid, vout := i.prev_vout, value := i.value
          sequence := i.sequence, script_data := [], sighash_type := i.sighash_type }

/-- Modelled from the spec: a minimal output builder (spec section 4.2):
dispatches on the recipient-descriptor variant; an unset descriptor
fails translation. -/
def modelOutputBuilder (o : OutputSpec) : Except TranslationFailure CanonicalOutput :=
  match o.to_recipient with
  | none => .error .translation
  | some _ =>
    .ok { value := o.value, script_pubkey := [], taproot_payload := [], control_block := [] }

/-- Modelled from the spec: a minimal claim builder (spec section 4.5):
attaches the signature to the input's claim descriptor; an unset
descriptor fails translation. -/
def modelClaimBuilder (i : InputSpec) (sig : Bytes) : Except TranslationFailure TxInClaim :=
  match i.claiming_script with
  | none => .error .translation
  | some _ =>
    .ok { txid := i.prev_txid, vout := i.prev_vout, sequence := i.sequence
          script_sig := [], witness_items := [sig] }

/-- Modelled from the spec: a concrete instantiation of the collaborator
modules (spec section 6), used to evaluate the theorems on concrete
requests: the utxo compiler selects all inputs and reports one sighash
per input, and the signer produces one signature per sighash. -/
def modelCollab : Collab :=
  { input_from_proto := modelInputBuilder
    output_from_proto := modelOutputBuilder
    claim_from_proto := modelClaimBuilder
    utxo_preimage_hashes := fun s =>
      { error := .OK, sighashes := s.inputs.map (fun _ => []), inputs := s.inputs
        weight_estimate := 0, fee_estimate := 0 }
    utxo_compile := fun p =>
      { error := .OK, encoded := p.inputs.map (fun _ => 0), txid := [], weight := 0, fee := 0 }
    signatures_from_proto := fun pre _ _ _ _ => .ok (pre.sighashes.map (fun _ => [])) }

/-- A failing run of `mapE` exposes a failing element. -/
theorem mapE_error {ε α β : Type} (f : α → Except ε β) (l : List α) (e : ε)
    (h : mapE f l = .error e) : ∃ a ∈ l, f a = .error e := by
  induction l with
  | nil => simp [mapE] at h
  | cons a l ih =>
    rw [mapE] at h
    cases hfa : f a with
    | error e2 =>
      rw [hfa] at h
      exact ⟨a, by simp, by rw [hfa]; exact congrArg Except.error (Except.error.inj h)⟩
    | ok b =>
      rw [hfa] at h
      cases hml : mapE f l with
      | error e2 =>
        rw [hml] at h
        obtain ⟨a2, ha2, hfa2⟩ := ih (by rw [hml]; exact congrArg Except.error (Except.error.inj h))
        exact ⟨a2, by simp [ha2], hfa2⟩
      | ok l2 => rw [hml] at h; cases h

/-- A failing lifted builder call always carries the translation error
kind. -/
theorem liftB_error {α : Type} (r : Except TranslationFailure α) (e : Error)
    (h : liftB r = .error e) : e.kind = .Error_translation := by
  cases r with
  | ok a => cases h
  | error t =>
    cases t
    rw [liftB] at h
    cases h
    rfl

/-- A failing input-translation loop carries the translation error kind. -/
theorem translate_inputs_error (C : Collab) (inputs : List InputSpec) (e : Error)
    (h : translate_inputs C inputs = .error e) : e.kind = .Error_translation := by
  obtain ⟨a, _, ha⟩ := mapE_error _ _ _ h
  exact liftB_error _ _ ha

/-- A failing output-translation loop carries the translation error kind. -/
theorem translate_outputs_error (C : Collab) (outputs : List OutputSpec) (e : Error)
    (h : translate_outputs C outputs = .error e) : e.kind = .Error_translation := by
  obtain ⟨a, _, ha⟩ := mapE_error _ _ _ h
  exact liftB_error _ _ ha

/-- A failing claim-building loop carries the translation error kind. -/
theorem build_claims_error (C : Collab) (proto : SigningInput) (signatures : List Bytes)
    (e : Error) (h : build_claims C proto signatures = .error e) :
    e.kind = .Error_translation := by
  obtain ⟨a, _, ha⟩ := mapE_error _ _ _ h
  exact liftB_error _ _ ha

/-- A failing change-script computation carries either the
invalid-change-output kind or the translation kind. -/
theorem change_script_error (C : Collab) (proto : SigningInput) (e : Error)
    (h : change_script C proto = .error e) :
    e.kind = .Error_invalid_change_output ∨ e.kind = .Error_translation := by
  rw [change_script] at h
  split at h
  · cases h
  · split at h
    · cases h
      left
      rfl
    · split at h
      · next e2 heq =>
        cases h
        exact Or.inr (liftB_error _ _ heq)
      · cases h

/-- A failing bridge call always carries one of the `utxo_*` kinds. -/
theorem handle_utxo_error_kind (u : UtxoError) (e : Error)
    (h : handle_utxo_error u = .error e) :
    e.kind ≠ .OK ∧ e.kind ≠ .Error_invalid_change_output ∧
    e.kind ≠ .Error_unmatched_input_signature_count ∧ e.kind ≠ .Error_translation := by
  cases u <;> rw [handle_utxo_error] at h <;> cases h <;>
    exact ⟨by decide, by decide, by decide, by decide⟩

/-- A successful `compile_impl` reports the `OK` error code. -/
theorem compile_impl_ok_error (C : Collab) (proto : SigningInput)
    (signatures : List Bytes) (out : SigningOutput)
    (h : compile_impl C proto signatures = .ok out) : out.error = .OK := by
  rw [compile_impl] at h
  split at h
  · cases h
  · split at h
    · cases h
    · split at h
      · cases h
      · split at h
        · cases h
        · cases h
          rfl

/-- A successful `preimage_hashes_impl` reports the `OK` error code. -/
theorem preimage_hashes_impl_ok_error (C : Collab) (proto : SigningInput)
    (out : PreSigningOutput)
    (h : preimage_hashes_impl C proto = .ok out) : out.error = .OK := by
  rw [preimage_hashes_impl] at h
  split at h
  · cases h
  · split at h
    · cases h
    · split at h
      · cases h
      · split at h
        · cases h
        · cases h
          rfl

/-- When the signature count matches the input count, a failing
`compile_impl` never carries the unmatched-signature-count kind. -/
theorem compile_impl_matched_error (C : Collab) (proto : SigningInput)
    (signatures : List Bytes) (e : Error)
    (hlen : proto.inputs.length = signatures.length)
    (h : compile_impl C proto signatures = .error e) :
    e.kind ≠ .Error_unmatched_input_signature_count := by
  rw [compile_impl, if_neg (by simp [hlen])] at h
  split at h
  · next e2 heq =>
    cases h
    rw [build_claims_error _ _ _ _ heq]
    decide
  · next claims heq =>
    split at h
    · next e2 heq2 =>
      cases h
      rw [translate_outputs_error _ _ _ heq2]
      decide
    · next outs heq2 =>
      split at h
      · next e2 heq3 =>
        cases h
        exact (handle_utxo_error_kind _ _ heq3).2.2.1
      · cases h

/-- C3: the error taxonomy bridge `handle_utxo_error` is total over the
utxo compiler's entire error enumeration: it succeeds exactly on `OK`;
it is injective (one-to-one) on error codes; it preserves the
enumeration order; and it maps each of the ten non-`OK` compiler codes
to the listed corresponding `Error_utxo_*` code.  Totality of the match
(no default arm) makes a runtime fallback impossible. -/
theorem bridge_total_injective_ordered :
    (∀ u : UtxoError, errOf (handle_utxo_error u) = none ↔ u = .OK) ∧
    (∀ u1 u2 : UtxoError,
      errOf (handle_utxo_error u1) = errOf (handle_utxo_error u2) → u1 = u2) ∧
    (∀ u1 u2 : UtxoError, ∀ p1 p2 : ProtoError,
      errOf (handle_utxo_error u1) = some p1 → errOf (handle_utxo_error u2) = some p2 →
      (u1.idx < u2.idx ↔ p1.idx < p2.idx)) ∧
    (errOf (handle_utxo_error .Error_invalid_leaf_hash) = some .Error_utxo_invalid_leaf_hash ∧
     errOf (handle_utxo_error .Error_invalid_sighash_type) = some .Error_utxo_invalid_sighash_type ∧
     errOf (handle_utxo_error .Error_invalid_lock_time) = some .Error_utxo_invalid_lock_time ∧
     errOf (handle_utxo_error .Error_invalid_txid) = some .Error_utxo_invalid_txid ∧
     errOf (handle_utxo_error .Error_sighash_failed) = some .Error_utxo_sighash_failed ∧
     errOf (handle_utxo_error .Error_missing_sighash_method) = some .Error_utxo_missing_sighash_method ∧
     errOf (handle_utxo_error .Error_failed_encoding) = some .Error_utxo_failed_encoding ∧
     errOf (handle_utxo_error .Error_insufficient_inputs) = some .Error_utxo_insufficient_inputs ∧
     errOf (handle_utxo_error .Error_missing_change_script_pubkey) = some .Error_utxo_missing_change_script_pubkey ∧
     errOf (handle_utxo_error .Error_zero_sequence_not_enabled) = some .Error_utxo_zero_sequence_not_enabled) :=
  ⟨by decide, by decide, by decide, by decide⟩

/-- The bridge theorem evaluated at concrete error codes: injectivity at
`Error_invalid_txid`, and order preservation between `Error_invalid_txid`
and `Error_sighash_failed`. -/
theorem bridge_total_injective_ordered_witness :
    UtxoError.Error_invalid_txid = UtxoError.Error_invalid_txid ∧
    (UtxoError.Error_invalid_txid.idx < UtxoError.Error_sighash_failed.idx ↔
      ProtoError.Error_utxo_invalid_txid.idx < ProtoError.Error_utxo_sighash_failed.idx) :=
  ⟨bridge_total_injective_ordered.2.1 .Error_invalid_txid .Error_invalid_txid rfl,
   bridge_total_injective_ordered.2.2.1 .Error_invalid_txid .Error_sighash_failed
     .Error_utxo_invalid_txid .Error_utxo_sighash_failed (by decide) (by decide)⟩

/-- A simple well-formed one-input request used to evaluate the
theorems on concrete data. -/
def sampleInput : InputSpec :=
  { prev_txid := [1], prev_vout := 0, value := 100, sequence := 0
    claiming_script := some (.keyHash [2]), sighash_type := 1, private_key := [] }

/-- A simple well-formed output used to evaluate the theorems on
concrete data. -/
def sampleOutput : OutputSpec :=
  { value := 50, to_recipient := some (.inscribeCommit [3]) }

/-- A simple well-formed request (change output disabled) used to
evaluate the theorems on concrete data. -/
def sampleRequest : SigningInput :=
  { version := 2, lock_time := 0, inputs := [sampleInput], outputs := [sampleOutput]
    change_output := none, input_selector := .useAll, fee_per_vb := 0
    private_key := [7], disable_change_output := true
    dangerous_use_fixed_schnorr_rng := true }

/-- C1: for every signing request and every signature list, `compile`
fails with `Error_unmatched_input_signature_count` whenever the
signature-list length differs from the request's input count, regardless
of the signatures' content; when the lengths match, this error code is
never returned. -/
theorem compile_signature_count (C : Collab) (proto : SigningInput)
    (signatures : List Bytes) :
    (proto.inputs.length ≠ signatures.length →
      (compile C proto signatures).error = .Error_unmatched_input_signature_count) ∧
    (proto.inputs.length = signatures.length →
      (compile C proto signatures).error ≠ .Error_unmatched_input_signature_count) := by
  constructor
  · intro hne
    rw [compile, compile_impl, if_pos hne]
    rfl
  · intro heq
    cases hci : compile_impl C proto signatures with
    | ok out =>
      rw [compile, hci]
      rw [compile_impl_ok_error C proto signatures out hci]
      decide
    | error e =>
      rw [compile, hci]
      exact compile_impl_matched_error C proto signatures e heq hci

/-- The signature-count theorem evaluated on a concrete one-input
request: an empty signature list is rejected with the
unmatched-count code; a one-element signature list is not. -/
theorem compile_signature_count_witness :
    (compile modelCollab sampleRequest []).error
        = .Error_unmatched_input_signature_count ∧
    (compile modelCollab sampleRequest [[5]]).error
        ≠ .Error_unmatched_input_signature_count :=
  ⟨(compile_signature_count modelCollab sampleRequest []).1 (by decide),
   (compile_signature_count modelCollab sampleRequest [[5]]).2 (by decide)⟩

/-- A request with automatic change enabled but no change spec. -/
def missingChangeRequest : SigningInput :=
  { sampleRequest with disable_change_output := false, change_output := none }

/-- C4 counterexample: at a concrete erroneous request the top-level
sign output carries only the error code: every other field is its
default (empty) value.  The output type — faithful to the source's
exhaustive struct literal (entry.rs lines 330-337 and the error path at
lines 88-94) — has no error-message field, so no human-readable
description is carried anywhere in the output, contradicting the claim. -/
theorem sign_error_output_carries_no_message :
    sign modelCollab missingChangeRequest 0 =
      { error := .Error_invalid_change_output, transaction := none
        encoded := [], txid := [], weight := 0, fee := 0 } := by
  decide

/-- C4 (amended): the top-level entry points `sign`, `preimage_hashes`
and `compile` are total functions; whenever the internal implementation
returns an error, they return the structurally valid, otherwise-default
output object whose error field carries the error kind (no
error-message field exists on these outputs). -/
theorem entry_points_error_capture (C : Collab) (proto : SigningInput)
    (rng : Nat) (signatures : List Bytes) (e1 e2 e3 : Error) :
    (sign_impl C proto rng = .error e1 →
      sign C proto rng = { SigningOutput.default with error := e1.kind }) ∧
    (preimage_hashes_impl C proto = .error e2 →
      preimage_hashes C proto = { PreSigningOutput.default with error := e2.kind }) ∧
    (compile_impl C proto signatures = .error e3 →
      compile C proto signatures = { SigningOutput.default with error := e3.kind }) := by
  refine ⟨fun h => ?_, fun h => ?_, fun h => ?_⟩ <;>
    simp [sign, preimage_hashes, compile, h, Error.into]

/-- The error-capture theorem evaluated on a concrete erroneous request
for each entry point. -/
theorem entry_points_error_capture_witness :
    sign modelCollab missingChangeRequest 0 =
      { SigningOutput.default with error := .Error_invalid_change_output } ∧
    preimage_hashes modelCollab missingChangeRequest =
      { PreSigningOutput.default with error := .Error_invalid_change_output } ∧
    compile modelCollab missingChangeRequest [] =
      { SigningOutput.default with error := .Error_unmatched_input_signature_count } :=
  ⟨(entry_points_error_capture modelCollab missingChangeRequest 0 []
      (Error.from .Error_invalid_change_output) (Error.from .Error_invalid_change_output)
      (Error.from .Error_unmatched_input_signature_count)).1 (by decide),
   (entry_points_error_capture modelCollab missingChangeRequest 0 []
      (Error.from .Error_invalid_change_output) (Error.from .Error_invalid_change_output)
      (Error.from .Error_unmatched_input_signature_count)).2.1 (by decide),
   (entry_points_error_capture modelCollab missingChangeRequest 0 []
      (Error.from .Error_invalid_change_output) (Error.from .Error_invalid_change_output)
      (Error.from .Error_unmatched_input_signature_count)).2.2 (by decide)⟩

/-- A request with automatic change enabled, no change spec, and a
malformed (unset) claiming script on its single input. -/
def malformedInputChangeRequest : SigningInput :=
  { sampleRequest with
      inputs := [{ sampleInput with claiming_script := none }]
      disable_change_output := false
      change_output := none }

/-- C2 counterexample: a request with `disable_change_output = false`
and no change spec whose single input fails translation is rejected
with the translation error kind, not `Error_invalid_change_output`:
input translation (entry.rs lines 182-186) runs before the
change-output check (lines 195-207), so the claim's universally
quantified statement is false at this request. -/
theorem preimage_missing_change_translation_first :
    (preimage_hashes modelCollab malformedInputChangeRequest).error = .Error_translation ∧
    (preimage_hashes modelCollab malformedInputChangeRequest).error ≠
      .Error_invalid_change_output := by
  decide

/-- C2 (amended): for every signing request with
`disable_change_output = false` and no change spec present whose inputs
and outputs all translate successfully, computing preimage hashes (and
hence the single-call sign path) fails with
`Error_invalid_change_output`; the statement holds for every
utxo-compiler collaborator, so the failure cannot depend on — and thus
occurs before — any invocation of the external transaction compiler. -/
theorem preimage_missing_change_fails (C : Collab) (proto : SigningInput)
    (rng : Nat) (ins : List UtxoTxIn) (outs : List CanonicalOutput)
    (hd : proto.disable_change_output = false)
    (hc : proto.change_output = none)
    (hins : translate_inputs C proto.inputs = .ok ins)
    (houts : translate_outputs C proto.outputs = .ok outs) :
    preimage_hashes_impl C proto = .error (Error.from .Error_invalid_change_output) ∧
    sign_impl C proto rng = .error (Error.from .Error_invalid_change_output) ∧
    (preimage_hashes C proto).error = .Error_invalid_change_output ∧
    (sign C proto rng).error = .Error_invalid_change_output := by
  have hcs : change_script C proto = .error (Error.from .Error_invalid_change_output) := by
    rw [change_script, if_neg (by simp [hd]), hc]
  have him : preimage_hashes_impl C proto
      = .error (Error.from .Error_invalid_change_output) := by
    rw [preimage_hashes_impl, hins, houts, hcs]
  have hsi : sign_impl C proto rng = .error (Error.from .Error_invalid_change_output) := by
    rw [sign_impl, him]
  refine ⟨him, hsi, ?_, ?_⟩
  · rw [preimage_hashes, him]
    rfl
  · rw [sign, hsi]
    rfl

/-- The amended change-precondition theorem evaluated on a concrete
well-translating request with no change spec. -/
theorem preimage_missing_change_fails_witness :
    (preimage_hashes modelCollab missingChangeRequest).error
      = .Error_invalid_change_output ∧
    (sign modelCollab missingChangeRequest 0).error = .Error_invalid_change_output :=
  ⟨(preimage_missing_change_fails modelCollab missingChangeRequest 0
      [{ txid := [1], vout := 0, value := 100, sequence := 0
         script_data := [], sighash_type := 1 }]
      [{ value := 50, script_pubkey := [], taproot_payload := [], control_block := [] }]
      rfl rfl (by decide) (by decide)).2.2.1,
   (preimage_missing_change_fails modelCollab missingChangeRequest 0
      [{ txid := [1], vout := 0, value := 100, sequence := 0
         script_data := [], sighash_type := 1 }]
      [{ value := 50, script_pubkey := [], taproot_payload := [], control_block := [] }]
      rfl rfl (by decide) (by decide)).2.2.2⟩

/-- C6: on success, the preimage stage returns the canonical output
list exactly as translated from the request's outputs, in the original
order and unmodified (whatever input selection the compiler performs);
only the input list (and the sighash list) is taken from the compiler's
finalized result. -/
theorem preimage_outputs_untouched (C : Collab) (proto : SigningInput)
    (out : PreSigningOutput)
    (h : preimage_hashes_impl C proto = .ok out) :
    translate_outputs C proto.outputs = .ok out.utxo_outputs ∧
    ∃ ins change, translate_inputs C proto.inputs = .ok ins ∧
      change_script C proto = .ok change ∧
      out.utxo_inputs =
        (C.utxo_preimage_hashes (mkUtxoSigning proto ins out.utxo_outputs change)).inputs ∧
      out.sighashes =
        (C.utxo_preimage_hashes (mkUtxoSigning proto ins out.utxo_outputs change)).sighashes := by
  rw [preimage_hashes_impl] at h
  split at h
  · cases h
  · next ins hins =>
    split at h
    · cases h
    · next outs houts =>
      split at h
      · cases h
      · next change hchange =>
        split at h
        · cases h
        · cases h
          exact ⟨houts, ins, change, hins, hchange, rfl, rfl⟩

/-- The outputs-untouched theorem evaluated on a concrete request: the
outputs reported by the preimage stage are exactly the translated
request outputs. -/
theorem preimage_outputs_untouched_witness :
    translate_outputs modelCollab sampleRequest.outputs =
      .ok ((preimage_hashes modelCollab sampleRequest).utxo_outputs) :=
  (preimage_outputs_untouched modelCollab sampleRequest
    (preimage_hashes modelCollab sampleRequest) (by decide)).1

/-- C10: `compile_impl` validates the signature count against the
original request's input list and pairs the i-th signature with the
i-th request input by position — the claim records are built, in
request-input order, from `proto.inputs.zip signatures` — and the whole
operation is independent of the utxo-preimage collaborator, hence of
any finalized or reordered selection a prior preimage phase produced. -/
theorem compile_pairs_request_inputs (C : Collab) (proto : SigningInput)
    (signatures : List Bytes) (out : SigningOutput) (claims : List TxInClaim)
    (outs : List CanonicalOutput) (g : UtxoSigningInput → UtxoPreSigningOutput) :
    (proto.inputs.length ≠ signatures.length →
      compile_impl C proto signatures
        = .error (Error.from .Error_unmatched_input_signature_count)) ∧
    (build_claims C proto signatures = .ok claims →
      translate_outputs C proto.outputs = .ok outs →
      compile_impl C proto signatures = .ok out →
      build_claims C proto signatures
        = mapE (fun p => liftB (C.claim_from_proto p.1 p.2)) (proto.inputs.zip signatures) ∧
      out.transaction = some
        { version := proto.version, lock_time := proto.lock_time
          inputs := claims.map claimToTransactionInput
          outputs := outs.map outputToTransactionOutput }) ∧
    compile_impl { C with utxo_preimage_hashes := g } proto signatures
      = compile_impl C proto signatures := by
  refine ⟨fun hne => ?_, fun hclaims houts h => ?_, rfl⟩
  · rw [compile_impl, if_pos hne]
  · refine ⟨rfl, ?_⟩
    rw [compile_impl] at h
    split at h
    · cases h
    · split at h
      · cases h
      · next claims2 hclaims2 =>
        split at h
        · cases h
        · next outs2 houts2 =>
          split at h
          · cases h
          · cases h
            rw [hclaims2] at hclaims
            cases hclaims
            rw [houts2] at houts
            cases houts
            rfl

/-- The pairing theorem evaluated on a concrete one-input request: the
empty signature list is rejected; a one-signature list yields a
transaction view whose single input claim carries that signature. -/
theorem compile_pairs_request_inputs_witness :
    compile_impl modelCollab sampleRequest []
      = .error (Error.from .Error_unmatched_input_signature_count) ∧
    (compile modelCollab sampleRequest [[5]]).transaction = some
      { version := sampleRequest.version, lock_time := sampleRequest.lock_time
        inputs := [({ txid := [1], vout := 0, sequence := 0, script_sig := []
                      witness_items := [[5]] } : TxInClaim)].map claimToTransactionInput
        outputs := [({ value := 50, script_pubkey := [], taproot_payload := []
                       control_block := [] } : CanonicalOutput)].map outputToTransactionOutput } :=
  ⟨(compile_pairs_request_inputs modelCollab sampleRequest []
      (compile modelCollab sampleRequest []) [] [] modelCollab.utxo_preimage_hashes).1
      (by decide),
   ((compile_pairs_request_inputs modelCollab sampleRequest [[5]]
      (compile modelCollab sampleRequest [[5]])
      [{ txid := [1], vout := 0, sequence := 0, script_sig := [], witness_items := [[5]] }]
      [{ value := 50, script_pubkey := [], taproot_payload := [], control_block := [] }]
      modelCollab.utxo_preimage_hashes).2.1
      (by decide) (by decide) (by decide)).2⟩

/-- A failing `preimage_hashes_impl` never carries the `OK` kind, so the
top-level `preimage_hashes` reports `OK` exactly on success. -/
theorem preimage_hashes_impl_error_kind (C : Collab) (proto : SigningInput) (e : Error)
    (h : preimage_hashes_impl C proto = .error e) : e.kind ≠ .OK := by
  rw [preimage_hashes_impl] at h
  split at h
  · next e2 heq =>
    cases h
    rw [translate_inputs_error _ _ _ heq]
    decide
  · next ins hins =>
    split at h
    · next e2 heq =>
      cases h
      rw [translate_outputs_error _ _ _ heq]
      decide
    · next outs houts =>
      split at h
      · next e2 heq =>
        cases h
        rcases change_script_error _ _ _ heq with h2 | h2 <;> rw [h2] <;> decide
      · next change hchange =>
        split at h
        · next e2 heq =>
          cases h
          exact (handle_utxo_error_kind _ _ heq).1
        · cases h

/-- C5: for every signing request on which both paths succeed, the
split flow — computing preimage hashes, producing signatures from the
result with the signing collaborator, then compiling with those
signatures — returns a `SigningOutput` equal to that of the single-call
`sign` entry point on the same request. -/
theorem split_flow_equals_sign (C : Collab) (proto : SigningInput) (rng : Nat)
    (sigs : List Bytes)
    (hpre : (preimage_hashes C proto).error = .OK)
    (hsig : C.signatures_from_proto (preimage_hashes C proto) proto.private_key
      (collect_individual_keys proto.inputs) proto.dangerous_use_fixed_schnorr_rng rng
      = .ok sigs)
    (hok : (sign C proto rng).error = .OK) :
    compile C proto sigs = sign C proto rng := by
  have hpi : preimage_hashes_impl C proto = .ok (preimage_hashes C proto) := by
    cases hp : preimage_hashes_impl C proto with
    | ok out => rw [preimage_hashes, hp]
    | error e =>
      exfalso
      rw [preimage_hashes, hp] at hpre
      exact preimage_hashes_impl_error_kind C proto e hp hpre
  have hsi : sign_impl C proto rng = compile_impl C proto sigs := by
    simp only [sign_impl, hpi]
    rw [if_neg (by simp [hpre]), hsig]
  rw [compile, sign, hsi]

/-- The split-flow theorem evaluated on a concrete request with the
model collaborators. -/
theorem split_flow_equals_sign_witness :
    compile modelCollab sampleRequest [[]] = sign modelCollab sampleRequest 0 :=
  split_flow_equals_sign modelCollab sampleRequest 0 [[]]
    (by decide) (by decide) (by decide)

/-- C8: for every signing collaborator honouring the spec's
deterministic-nonce contract (section 4.4: when the flag is set, nonce
generation is reproducible instead of fresh randomness), two runs of
`sign` on identical requests with `dangerous_use_fixed_schnorr_rng =
true` — under different ambient randomness — produce byte-identical
encoded, txid and fee fields. -/
theorem sign_deterministic (C : Collab) (proto : SigningInput) (rng1 rng2 : Nat)
    (hdet : ∀ pre key km r1 r2,
      C.signatures_from_proto pre key km true r1 = C.signatures_from_proto pre key km true r2)
    (hflag : proto.dangerous_use_fixed_schnorr_rng = true) :
    (sign C proto rng1).encoded = (sign C proto rng2).encoded ∧
    (sign C proto rng1).txid = (sign C proto rng2).txid ∧
    (sign C proto rng1).fee = (sign C proto rng2).fee := by
  have h : sign_impl C proto rng1 = sign_impl C proto rng2 := by
    cases hp : preimage_hashes_impl C proto with
    | error e => simp [sign_impl, hp]
    | ok pre =>
      simp only [sign_impl, hp]
      rw [hflag, hdet pre proto.private_key (collect_individual_keys proto.inputs) rng1 rng2]
  have h2 : sign C proto rng1 = sign C proto rng2 := by
    unfold sign
    rw [h]
  exact ⟨by rw [h2], by rw [h2], by rw [h2]⟩

/-- The determinism theorem evaluated on a concrete request, under two
different randomness seeds. -/
theorem sign_deterministic_witness :
    (sign modelCollab sampleRequest 0).encoded = (sign modelCollab sampleRequest 1).encoded ∧
    (sign modelCollab sampleRequest 0).txid = (sign modelCollab sampleRequest 1).txid ∧
    (sign modelCollab sampleRequest 0).fee = (sign modelCollab sampleRequest 1).fee :=
  sign_deterministic modelCollab sampleRequest 0 1 (fun _ _ _ _ _ => rfl) rfl

/-- Modelled from the spec: the address error kinds used by
`parse_address` and `derive_address` (the `tw_coin_entry` error type is
not under src/; entry.rs uses exactly `FromHexError` and
`InvalidInput`). -/
inductive AddressError where
  | FromHexError
  | InvalidInput
deriving DecidableEq

/-- The bitcoin network an address is checked against. -/
inductive Network where
  | bitcoin
  | testnet
deriving DecidableEq

/-- Modelled from the spec: the payload of a legacy bitcoin address
(public-key-hash or script-hash). -/
inductive AddressPayload where
  | pubkeyHash (h : Bytes)
  | scriptHash (h : Bytes)
deriving DecidableEq

/-- A network-checked bitcoin address (the `bitcoin` crate's
`Address<NetworkChecked>`, wrapped by entry.rs line 19). -/
structure Address where
  network : Network
  payload : AddressPayload
deriving DecidableEq

/-- Modelled from the spec: the `bitcoin`-crate primitives used by the
address codec, absent from src/ and treated as collaborator functions:
SEC1 public-key validation (`PublicKey::from_slice`, `none` on an
invalid encoding), the hash160 digest behind `pubkey_hash()` (20
bytes), and the 4-byte base58check checksum digest. -/
structure BtcLib where
  from_slice : Bytes → Option Bytes
  hash160 : Bytes → Bytes
  checksum : Bytes → Bytes

/-- Modelled from the spec: the `tw_keypair` public key handed to
`derive_address`: secp256k1 (compressed), secp256k1 extended, or some
other curve kind. -/
inductive PublicKey where
  | secp256k1 (b : Bytes)
  | secp256k1Extended (b : Bytes)
  | ed25519 (b : Bytes)
deriving DecidableEq

/-- The base58 alphabet, in digit order. -/
def b58chars : List Char :=
  "123456789ABCDEFGHJKLMNPQRSTUVWXYZabcdefghijkmnopqrstuvwxyz".data

/-- The character of a base58 digit. -/
def b58char (d : Nat) : Char := b58chars.getD d '1'

/-- The base58 digit of a character, `none` when the character is not
in the alphabet. -/
def b58index (c : Char) : Option Nat := b58chars.findIdx? (fun x => x == c)

/-- Big-endian value of a digit list in the given base. -/
def beToNat (base : Nat) (l : List Nat) : Nat :=
  l.foldl (fun acc d => acc * base + d) 0

/-- Big-endian digits of a number in the given base (empty for zero,
no leading zero digit). -/
def natToBE (base n : Nat) : List Nat := (Nat.digits base n).reverse

/-- Number of leading zero bytes. -/
def countZeros : List Nat → Nat
  | [] => 0
  | b :: t => if b = 0 then countZeros t + 1 else 0

/-- The list with its leading zero bytes removed. -/
def stripZeros : List Nat → List Nat
  | [] => []
  | b :: t => if b = 0 then stripZeros t else b :: t

/-- Number of leading `1` characters (the base58 rendering of a zero
byte). -/
def countOnes : List Char → Nat
  | [] => 0
  | c :: t => if c = '1' then countOnes t + 1 else 0

/-- Effectful map in the `Option` monad, in order, short-circuiting at
the first failure. -/
def mapO {α β : Type} (f : α → Option β) : List α → Option (List β)
  | [] => some []
  | a :: l =>
    match f a with
    | none => none
    | some b =>
      match mapO f l with
      | none => none
      | some l2 => some (b :: l2)

/-- Modelled from the spec: base58check rendering of an address payload
(the `bitcoin` crate's `Display`): append the 4-byte checksum of the
payload, emit one `1` per leading zero byte, then the base58 digits of
the big-endian value. -/
def encodeBase58Check (L : BtcLib) (payload : Bytes) : String :=
  String.mk (List.replicate (countZeros (payload ++ L.checksum payload)) '1' ++
    (natToBE 58 (beToNat 256 (payload ++ L.checksum payload))).map b58char)

/-- Modelled from the spec: base58 decoding of a string (the `bitcoin`
crate's parser): every character must be a base58 digit; leading `1`
characters become leading zero bytes; the remaining value becomes its
big-endian base-256 byte string. -/
def decodeBase58 (s : String) : Option Bytes :=
  match mapO b58index s.data with
  | none => none
  | some ds =>
    some (List.replicate (countOnes s.data) 0 ++ natToBE 256 (beToNat 58 ds))

/-- Modelled from the spec: `bitcoin::address::Address::from_str` for
legacy (base58check) addresses: decode, check the 25-byte length and
the checksum, then dispatch on the version byte (`0` mainnet p2pkh, `5`
mainnet p2sh, `111` testnet p2pkh, `196` testnet p2sh). -/
def address_from_str (L : BtcLib) (s : String) : Option Address :=
  match decodeBase58 s with
  | none => none
  | some bytes =>
    if bytes.length = 25 then
      if bytes.drop 21 = L.checksum (bytes.take 21) then
        match bytes.take 21 with
        | 0 :: h => some ⟨.bitcoin, .pubkeyHash h⟩
        | 5 :: h => some ⟨.bitcoin, .scriptHash h⟩
        | 111 :: h => some ⟨.testnet, .pubkeyHash h⟩
        | 196 :: h => some ⟨.testnet, .scriptHash h⟩
        | _ => none
      else none
    else none

/-- The version byte of a legacy address rendering. -/
def versionByte (a : Address) : Nat :=
  match a.network, a.payload with
  | .bitcoin, .pubkeyHash _ => 0
  | .bitcoin, .scriptHash _ => 5
  | .testnet, .pubkeyHash _ => 111
  | .testnet, .scriptHash _ => 196

/-- The hash carried by an address payload. -/
def addressHash (a : Address) : Bytes :=
  match a.payload with
  | .pubkeyHash h => h
  | .scriptHash h => h

/-- The string rendering of an address (entry.rs lines 21-25 delegate
to the `bitcoin` crate's `Display`, modelled as base58check of the
version byte followed by the hash). -/
def addressToString (L : BtcLib) (a : Address) : String :=
  encodeBase58Check L (versionByte a :: addressHash a)

/-- `BitcoinEntry::parse_address` (entry.rs lines 46-59): parse the
string, mapping a parse failure to `FromHexError`, then require the
mainnet network, mapping a mismatch to `InvalidInput`. -/
def parse_address (L : BtcLib) (s : String) : Except AddressError Address :=
  match address_from_str L s with
  | none => .error .FromHexError
  | some a =>
    if a.network = .bitcoin then .ok a else .error .InvalidInput

/-- `BitcoinEntry::derive_address` (entry.rs lines 61-83): accept only
secp256k1 (compressed or extended) keys, validate the bytes with the
`bitcoin` crate, and build the mainnet public-key-hash address. -/
def derive_address (L : BtcLib) (pk : PublicKey) : Except AddressError Address :=
  match pk with
  | .secp256k1 b =>
    match L.from_slice b with
    | none => .error .InvalidInput
    | some k => .ok ⟨.bitcoin, .pubkeyHash (L.hash160 k)⟩
  | .secp256k1Extended b =>
    match L.from_slice b with
    | none => .error .InvalidInput
    | some k => .ok ⟨.bitcoin, .pubkeyHash (L.hash160 k)⟩
  | .ed25519 _ => .error .InvalidInput

/-- Big-endian folding computes `Nat.ofDigits` of the reversed list. -/
theorem beToNat_eq_ofDigits (base : Nat) (l : List Nat) :
    beToNat base l = Nat.ofDigits base l.reverse := by
  suffices h : ∀ acc, l.foldl (fun acc d => acc * base + d) acc
      = acc * base ^ l.length + Nat.ofDigits base l.reverse by
    simpa [beToNat] using h 0
  induction l with
  | nil =>
    intro acc
    simp [Nat.ofDigits]
  | cons d t ih =>
    intro acc
    simp only [List.foldl_cons, List.reverse_cons, List.length_cons]
    rw [ih, Nat.ofDigits_append]
    simp only [List.length_reverse, Nat.ofDigits_cons, Nat.ofDigits_nil]
    ring

/-- Decoding the digits of a number gives the number back. -/
theorem beToNat_natToBE (base n : Nat) : beToNat base (natToBE base n) = n := by
  rw [beToNat_eq_ofDigits, natToBE, List.reverse_reverse, Nat.ofDigits_digits]

/-- Computing the digits of a decoded digit list gives the list back,
when its digits are in range and it has no leading zero. -/
theorem natToBE_beToNat (base : Nat) (hb : 1 < base) (l : List Nat)
    (hlt : ∀ x ∈ l, x < base) (hhead : l = [] ∨ l.head? ≠ some 0) :
    natToBE base (beToNat base l) = l := by
  have hlast : ∀ (h : l.reverse ≠ []), l.reverse.getLast h ≠ 0 := by
    intro hne
    cases l with
    | nil => simp at hne
    | cons a t =>
      have ha : a ≠ 0 := by
        rcases hhead with h0 | h0
        · cases h0
        · intro hz
          exact h0 (by simp [hz])
      have hq : (a :: t).reverse.getLast? = some a := by
        rw [List.reverse_cons, List.getLast?_concat]
      rw [List.getLast?_eq_getLast _ hne] at hq
      intro hz
      exact ha (by rw [← Option.some.inj hq, hz])
  rw [beToNat_eq_ofDigits, natToBE, Nat.digits_ofDigits base hb l.reverse
    (fun x hx => hlt x (List.mem_reverse.mp hx)) hlast]
  exact List.reverse_reverse l

/-- Splitting a byte string into its leading zeros and the rest. -/
theorem countZeros_replicate_strip (l : List Nat) :
    List.replicate (countZeros l) 0 ++ stripZeros l = l := by
  induction l with
  | nil => rfl
  | cons b t ih =>
    by_cases hb : b = 0
    · subst hb
      simp [countZeros, stripZeros, List.replicate_succ, ih]
    · simp [countZeros, stripZeros, hb]

/-- The stripped byte string has no leading zero. -/
theorem stripZeros_head (l : List Nat) :
    stripZeros l = [] ∨ (stripZeros l).head? ≠ some 0 := by
  induction l with
  | nil => exact Or.inl rfl
  | cons b t ih =>
    by_cases hb : b = 0
    · subst hb
      simpa [stripZeros] using ih
    · right
      simp [stripZeros, hb]

/-- Stripping keeps only elements of the original list. -/
theorem stripZeros_subset (l : List Nat) : ∀ x ∈ stripZeros l, x ∈ l := by
  induction l with
  | nil => simp [stripZeros]
  | cons b t ih =>
    intro x hx
    by_cases hb : b = 0
    · subst hb
      rw [stripZeros] at hx
      simp only [if_pos rfl] at hx
      exact List.mem_cons_of_mem _ (ih x hx)
    · rw [stripZeros] at hx
      simp only [if_neg hb] at hx
      exact hx

/-- A leading zero does not change the big-endian value. -/
theorem beToNat_cons_zero (base : Nat) (l : List Nat) :
    beToNat base (0 :: l) = beToNat base l := by
  simp [beToNat]

/-- Leading zeros do not change the big-endian value. -/
theorem beToNat_leading_zeros (base k : Nat) (l : List Nat) :
    beToNat base (List.replicate k 0 ++ l) = beToNat base l := by
  induction k with
  | zero => rfl
  | succ k ih => rw [List.replicate_succ, List.cons_append, beToNat_cons_zero, ih]

/-- Byte-string round trip through the big-endian value, leading zeros
tracked separately. -/
theorem bytes_roundtrip (l : List Nat) (hlt : ∀ x ∈ l, x < 256) :
    List.replicate (countZeros l) 0 ++ natToBE 256 (beToNat 256 l) = l := by
  have hval : beToNat 256 l = beToNat 256 (stripZeros l) := by
    conv_lhs => rw [← countZeros_replicate_strip l]
    exact beToNat_leading_zeros 256 (countZeros l) (stripZeros l)
  rw [hval, natToBE_beToNat 256 (by norm_num) (stripZeros l)
    (fun x hx => hlt x (stripZeros_subset l x hx)) (stripZeros_head l)]
  exact countZeros_replicate_strip l

/-- The base58 digit-to-character map is inverted by the lookup. -/
theorem b58index_b58char : ∀ d : Fin 58, b58index (b58char d.val) = some d.val := by
  decide

/-- A nonzero base58 digit never renders as the character 1. -/
theorem b58char_ne_one : ∀ d : Fin 58, d.val ≠ 0 → b58char d.val ≠ '1' := by
  decide

/-- Appending behaves pointwise on successful `mapO` runs. -/
theorem mapO_append {α β : Type} (f : α → Option β) (l1 l2 : List α) (r1 r2 : List β)
    (h1 : mapO f l1 = some r1) (h2 : mapO f l2 = some r2) :
    mapO f (l1 ++ l2) = some (r1 ++ r2) := by
  induction l1 generalizing r1 with
  | nil =>
    cases h1
    simpa using h2
  | cons a t ih =>
    rw [mapO] at h1
    cases hfa : f a with
    | none => rw [hfa] at h1; cases h1
    | some b =>
      rw [hfa] at h1
      cases hmt : mapO f t with
      | none => rw [hmt] at h1; cases h1
      | some rt =>
        rw [hmt] at h1
        cases h1
        rw [List.cons_append, mapO, hfa, ih rt hmt]
        rfl

/-- `mapO` on a constant list. -/
theorem mapO_replicate {α β : Type} (f : α → Option β) (k : Nat) (a : α) (b : β)
    (h : f a = some b) : mapO f (List.replicate k a) = some (List.replicate k b) := by
  induction k with
  | zero => rfl
  | succ k ih => rw [List.replicate_succ, mapO, h, ih, List.replicate_succ]

/-- Looking the characters of a digit list back up recovers the digits. -/
theorem mapO_b58 (ds : List Nat) (h : ∀ d ∈ ds, d < 58) :
    mapO b58index (ds.map b58char) = some ds := by
  induction ds with
  | nil => rfl
  | cons d t ih =>
    have hd : b58index (b58char d) = some d := b58index_b58char ⟨d, h d (by simp)⟩
    rw [List.map_cons, mapO, hd, ih (fun x hx => h x (List.mem_cons_of_mem _ hx))]

/-- Counting leading 1 characters across a 1-block. -/
theorem countOnes_replicate_append (k : Nat) (cs : List Char) :
    countOnes (List.replicate k '1' ++ cs) = k + countOnes cs := by
  induction k with
  | zero => simp
  | succ k ih =>
    rw [List.replicate_succ, List.cons_append, countOnes, if_pos rfl, ih]
    omega

/-- The base58 digits of a value never start with the character 1. -/
theorem countOnes_natToBE_map (n : Nat) :
    countOnes ((natToBE 58 n).map b58char) = 0 := by
  rcases Nat.eq_zero_or_pos n with h0 | hpos
  · subst h0
    simp [natToBE, countOnes]
  · have hn0 : n ≠ 0 := Nat.pos_iff_ne_zero.mp hpos
    cases hrev : natToBE 58 n with
    | nil => rfl
    | cons d t =>
      have hds : Nat.digits 58 n = t.reverse ++ [d] := by
        have h2 := congrArg List.reverse hrev
        rw [natToBE, List.reverse_reverse] at h2
        rw [h2, List.reverse_cons]
      have hdq : (Nat.digits 58 n).getLast? = some d := by
        rw [hds, List.getLast?_concat]
      have hdlast : d ≠ 0 := by
        have hgl := Nat.getLast_digit_ne_zero 58 hn0
        rw [List.getLast?_eq_getLast _ (Nat.digits_ne_nil_iff_ne_zero.mpr hn0)] at hdq
        exact (Option.some.inj hdq) ▸ hgl
      have hdlt : d < 58 := by
        refine Nat.digits_lt_base (by norm_num) (m := n) ?_
        rw [hds]
        simp
      simp only [List.map_cons, countOnes]
      rw [if_neg (b58char_ne_one ⟨d, hdlt⟩ hdlast)]

/-- Decoding a base58check rendering recovers the payload plus its
checksum. -/
theorem decode_encodeBase58Check (L : BtcLib) (payload : Bytes)
    (hlt : ∀ x ∈ payload ++ L.checksum payload, x < 256) :
    decodeBase58 (encodeBase58Check L payload)
      = some (payload ++ L.checksum payload) := by
  have hdata : (encodeBase58Check L payload).data
      = List.replicate (countZeros (payload ++ L.checksum payload)) '1' ++
        (natToBE 58 (beToNat 256 (payload ++ L.checksum payload))).map b58char := rfl
  have hD58 : ∀ d ∈ natToBE 58 (beToNat 256 (payload ++ L.checksum payload)), d < 58 := by
    intro d hd
    exact Nat.digits_lt_base (by norm_num) (List.mem_reverse.mp hd)
  have hmap : mapO b58index (encodeBase58Check L payload).data
      = some (List.replicate (countZeros (payload ++ L.checksum payload)) 0 ++
          natToBE 58 (beToNat 256 (payload ++ L.checksum payload))) := by
    rw [hdata]
    exact mapO_append _ _ _ _ _
      (mapO_replicate _ _ _ _ (by decide)) (mapO_b58 _ hD58)
  have hones : countOnes (encodeBase58Check L payload).data
      = countZeros (payload ++ L.checksum payload) := by
    rw [hdata, countOnes_replicate_append, countOnes_natToBE_map]
    omega
  simp only [decodeBase58, hmap, hones]
  rw [beToNat_leading_zeros, beToNat_natToBE]
  exact congrArg some (bytes_roundtrip _ hlt)

/-- C7: for every secp256k1 (compressed or extended) public key on
which `derive_address` succeeds, parsing the string rendering of the
derived address with `parse_address` succeeds and yields an address
equal to the derived one — for every hash160/checksum collaborator
producing digests of the documented lengths (20 and 4 bytes). -/
theorem derive_parse_roundtrip (L : BtcLib) (pk : PublicKey) (a : Address)
    (hhashlen : ∀ b, (L.hash160 b).length = 20)
    (hhashlt : ∀ b x, x ∈ L.hash160 b → x < 256)
    (hchklen : ∀ b, (L.checksum b).length = 4)
    (hchklt : ∀ b x, x ∈ L.checksum b → x < 256)
    (hda : derive_address L pk = .ok a) :
    parse_address L (addressToString L a) = .ok a := by
  have hshape : ∃ k, a = ⟨.bitcoin, .pubkeyHash (L.hash160 k)⟩ := by
    cases pk with
    | secp256k1 b =>
      rw [derive_address] at hda
      cases hfs : L.from_slice b with
      | none => rw [hfs] at hda; cases hda
      | some k =>
        rw [hfs] at hda
        cases hda
        exact ⟨k, rfl⟩
    | secp256k1Extended b =>
      rw [derive_address] at hda
      cases hfs : L.from_slice b with
      | none => rw [hfs] at hda; cases hda
      | some k =>
        rw [hfs] at hda
        cases hda
        exact ⟨k, rfl⟩
    | ed25519 b =>
      rw [derive_address] at hda
      cases hda
  obtain ⟨k, rfl⟩ := hshape
  have hplen : (0 :: L.hash160 k).length = 21 := by
    simp [hhashlen k]
  have hplt : ∀ x ∈ (0 :: L.hash160 k) ++ L.checksum (0 :: L.hash160 k), x < 256 := by
    intro x hx
    rcases List.mem_append.mp hx with hx1 | hx2
    · rcases List.mem_cons.mp hx1 with h0 | hmem
      · subst h0
        norm_num
      · exact hhashlt k x hmem
    · exact hchklt _ x hx2
  have hdec := decode_encodeBase58Check L (0 :: L.hash160 k) hplt
  have hlen : ((0 :: L.hash160 k) ++ L.checksum (0 :: L.hash160 k)).length = 25 := by
    simp [hhashlen k, hchklen]
  have htake : ((0 :: L.hash160 k) ++ L.checksum (0 :: L.hash160 k)).take 21
      = 0 :: L.hash160 k := List.take_left' hplen
  have hdrop : ((0 :: L.hash160 k) ++ L.checksum (0 :: L.hash160 k)).drop 21
      = L.checksum (0 :: L.hash160 k) := List.drop_left' hplen
  show parse_address L (encodeBase58Check L (0 :: L.hash160 k))
      = .ok ⟨.bitcoin, .pubkeyHash (L.hash160 k)⟩
  simp only [parse_address, address_from_str, hdec, hlen, htake, hdrop]
  simp

/-- Modelled from the spec: a concrete instantiation of the
`bitcoin`-crate collaborator, used to evaluate the round-trip theorem
on a concrete key. -/
def modelBtcLib : BtcLib :=
  { from_slice := fun b => some b
    hash160 := fun _ => List.replicate 20 0
    checksum := fun _ => List.replicate 4 0 }

/-- The round-trip theorem evaluated on a concrete secp256k1 key with
the model digests. -/
theorem derive_parse_roundtrip_witness :
    parse_address modelBtcLib
      (addressToString modelBtcLib ⟨.bitcoin, .pubkeyHash (List.replicate 20 0)⟩)
      = .ok ⟨.bitcoin, .pubkeyHash (List.replicate 20 0)⟩ :=
  derive_parse_roundtrip modelBtcLib (.secp256k1 [])
    ⟨.bitcoin, .pubkeyHash (List.replicate 20 0)⟩
    (fun _ => by simp [modelBtcLib])
    (fun _ x hx => by simp [modelBtcLib] at hx; simp [hx])
    (fun _ => by simp [modelBtcLib])
    (fun _ x hx => by simp [modelBtcLib] at hx; simp [hx])
    (by decide)

end TwBitcoin
